import Mathlib

/-!
Shallow embedding of the Koto language core for checking the written
specification against the code.  The embedding covers the AST-construction
pass of the parser (src/src/parser/src/parser.rs), the host interface
(src/src/koto/src/lib.rs), and the data both need.  Definitions are
translated from the source; a definition that belongs to the repository but
is not present under src/ (the PEG grammar crate, the vendored precedence
climber, the AST node/value crates) is modelled from the specification and
says so in its doc comment.
-/

/-- Grammar rules of the koto_grammar crate, as referenced by
src/src/parser/src/parser.rs.  The grammar file itself is not under src/;
this enumeration lists exactly the rules the parser source matches on. -/
inductive Rule where
  | program
  | child_block
  | next_expression
  | expressions
  | value_terms
  | empty
  | boolean
  | number
  | string
  | list
  | vec4_with_parens
  | vec4_no_parens
  | range
  | range_op
  | map
  | map_value
  | map_inline
  | lookup
  | id
  | map_access
  | index
  | call_args
  | copy_id
  | copy_expression
  | share_id
  | share_expression
  | return_expression
  | negate
  | function_block
  | function_inline
  | call_no_parens
  | operations
  | debug_with_parens
  | debug_no_parens
  | debug_keyword
  | single_assignment
  | multiple_assignment
  | assignment_id
  | global_keyword
  | assign
  | assign_add
  | assign_subtract
  | assign_multiply
  | assign_divide
  | assign_modulo
  | operation
  | add
  | subtract
  | multiply
  | divide
  | modulo
  | equal
  | not_equal
  | greater
  | greater_or_equal
  | less
  | less_or_equal
  | and
  | or
  | if_inline
  | if_block
  | else_if_block
  | for_block
  | for_inline
  | while_loop
  | break_
  | continue_
  | empty_line
  | if_keyword
  | while_keyword
  | until_keyword
  deriving DecidableEq, Repr

/-- Binary operators of the AST (enum AstOp of the parser crate, modelled
from the spec and the thirteen arms matched in build_ast for
Rule::operation). -/
inductive AstOp where
  | add
  | subtract
  | multiply
  | divide
  | modulo
  | equal
  | not_equal
  | greater
  | greater_or_equal
  | less
  | less_or_equal
  | and
  | or
  deriving DecidableEq, Repr

/-- Scope of an assignment target (enum Scope of the parser crate: Local is
the default, Global comes from the global keyword). -/
inductive Scope where
  | local_
  | global_
  deriving DecidableEq, Repr

mutual

/-- AST node, modelled from the spec (section 3): the node component of
AstNode = { span, node }.  Spans are elided: every claim under verification
concerns the node structure, not the positions.  Number literals carry the
matched source text (the source parses them to f64; no claim depends on the
numeric value).  Variants whose build_ast arms are outside the claims are
included for completeness of the data model. -/
inductive Node where
  | empty : Node
  | bool (value : Bool) : Node
  | number (text : String) : Node
  | str (value : String) : Node
  | vec4 (elements : List Node) : Node
  | list (elements : List Node) : Node
  | map (entries : List (String × Node)) : Node
  | range (start : Node) (end_ : Node) (inclusive : Bool) : Node
  | index_range (start : Option Node) (end_ : Option Node) (inclusive : Bool) : Node
  | id (name : String) : Node
  | lookup (chain : List LookupNode) : Node
  | block (body : List Node) : Node
  | op (op : AstOp) (lhs : Node) (rhs : Node) : Node
  | assign (target : AssignTarget) (expression : Node) : Node
  | multi_assign (targets : List AssignTarget) (expressions : List Node) : Node
  | debug (expressions : List (String × Node)) : Node
  | break_ : Node
  | continue_ : Node

/-- One step of a lookup chain (enum LookupNode of the parser crate,
modelled from the spec section 3): dotted access, subscript, or call. -/
inductive LookupNode where
  | id (name : String) : LookupNode
  | index (expression : Node) : LookupNode
  | call (args : List Node) : LookupNode

/-- Assignment target (enum AssignTarget of the parser crate, modelled from
the spec section 3): a scoped identifier or a lookup chain. -/
inductive AssignTarget where
  | id (id : String) (scope : Scope) : AssignTarget
  | lookup (chain : List LookupNode) : AssignTarget

end

/-- Associativity, as in the precedence climber interface (pest Assoc). -/
inductive Assoc where
  | left
  | right
  deriving DecidableEq, Repr

/-- The operator table built in KotoParser::new (parser.rs lines 14-35):
five tiers, lowest precedence first, every operator left-associative.  The
climber numbers the tiers upward from 1, so the vec element listed first
gets precedence 1 and the last gets precedence 5. -/
def opTable : Rule → Option (Nat × Assoc)
  | .and => some (1, .left)
  | .or => some (1, .left)
  | .equal => some (2, .left)
  | .not_equal => some (2, .left)
  | .greater => some (3, .left)
  | .greater_or_equal => some (3, .left)
  | .less => some (3, .left)
  | .less_or_equal => some (3, .left)
  | .add => some (4, .left)
  | .subtract => some (4, .left)
  | .multiply => some (5, .left)
  | .divide => some (5, .left)
  | .modulo => some (5, .left)
  | _ => none

/-- The operator-rule to AstOp mapping of the infix closure in build_ast for
Rule::operation (parser.rs lines 387-405).  Rules outside the thirteen
operator rules hit the unreachable arm, modelled as none. -/
def astOpOfRule : Rule → Option AstOp
  | .add => some .add
  | .subtract => some .subtract
  | .multiply => some .multiply
  | .divide => some .divide
  | .modulo => some .modulo
  | .equal => some .equal
  | .not_equal => some .not_equal
  | .greater => some .greater
  | .greater_or_equal => some .greater_or_equal
  | .less => some .less
  | .less_or_equal => some .less_or_equal
  | .and => some .and
  | .or => some .or
  | _ => none

/-- The infix callback passed to the climber in build_ast for
Rule::operation: it wraps both sides in an Op node for the matched operator
rule.  The unreachable arm for a non-operator rule is modelled as an Empty
node. -/
def infixBuild (op_rule : Rule) (lhs rhs : Node) : Node :=
  match astOpOfRule op_rule with
  | some op => Node.op op lhs rhs
  | none => Node.empty

/-- Modelled from the spec: the vendored precedence climber
(crate prec_climber, not under src/).  The spec prescribes table-driven
precedence climbing over the five-tier left-associative ladder.  The token
stream inside a Rule::operation pair alternates primary pairs (here already
built into nodes, Sum.inr) and operator pairs (Sum.inl).  One recursive
function covers both climber loops: after consuming an operator of
precedence p, the right operand is extended while the following operator
binds tighter (threshold p + 1 for a left-associative operator, p for a
right-associative one), then the loop continues at the original minimum
precedence.  Fuel makes the recursion structural; climbTokens supplies more
fuel than any stream can consume.  The empty_line separator accepted by the
vendored climber never occurs in the claims and is not modelled. -/
def climb_expr : Nat → Node → Nat → List (Sum Rule Node) → Node × List (Sum Rule Node)
  | 0, lhs, _, toks => (lhs, toks)
  | fuel + 1, lhs, min_prec, toks =>
    match toks with
    | Sum.inl r :: Sum.inr rhs0 :: rest =>
      match opTable r with
      | some (p, a) =>
        if min_prec ≤ p then
          let next_min := match a with
            | Assoc.left => p + 1
            | Assoc.right => p
          let rp := climb_expr fuel rhs0 next_min rest
          climb_expr fuel (infixBuild r lhs rp.1) min_prec rp.2
        else (lhs, toks)
      | none => (lhs, toks)
    | _ => (lhs, toks)

/-- Entry point of the climber on the token stream of a Rule::operation
pair: the first token is the initial primary, and climbing starts at
minimum precedence 0. -/
def climbTokens (toks : List (Sum Rule Node)) : Node :=
  match toks with
  | Sum.inr first :: rest => (climb_expr (2 * rest.length + 2) first 0 rest).1
  | _ => Node.empty

example :
    climbTokens [Sum.inr (Node.number "1"), Sum.inl Rule.add, Sum.inr (Node.number "2"),
      Sum.inl Rule.multiply, Sum.inr (Node.number "3")] =
      Node.op .add (Node.number "1") (Node.op .multiply (Node.number "2") (Node.number "3")) := rfl

example :
    climbTokens [Sum.inr (Node.id "a"), Sum.inl Rule.subtract, Sum.inr (Node.id "b"),
      Sum.inl Rule.subtract, Sum.inr (Node.id "c")] =
      Node.op .subtract (Node.op .subtract (Node.id "a") (Node.id "b")) (Node.id "c") := rfl

/-- Modelled from the spec: a pest parse pair, the input shape of build_ast.
The koto_grammar crate is not under src/, so a pair is modelled by what the
parser source consumes from it: its rule (pair.as_rule), its matched source
slice (pair.as_str) and its child pairs (pair.into_inner), in order. -/
inductive PestPair where
  | mk (rule : Rule) (text : String) (inner : List PestPair)

/-- Rule of a pair (pair.as_rule). -/
def PestPair.rule : PestPair → Rule
  | .mk r _ _ => r

/-- Matched source slice of a pair (pair.as_str): exactly the characters of
the input the pair matched. -/
def PestPair.asStr : PestPair → String
  | .mk _ t _ => t

/-- Child pairs of a pair (pair.into_inner). -/
def PestPair.inner : PestPair → List PestPair
  | .mk _ _ i => i

/-- Modelled from the spec: AssignTarget::to_node of the parser node crate
(not under src/).  The spec (4.B) says compound-assignment rewrites reuse
the left-hand side as an expression node: a scoped identifier becomes an Id
node (the scope tag is not part of an expression), a lookup target becomes
a Lookup node over the same chain. -/
def AssignTarget.to_node : AssignTarget → Node
  | .id name _ => Node.id name
  | .lookup chain => Node.lookup chain

/-- The make_assign_op rewrite inside build_ast for Rule::single_assignment
(parser.rs lines 311-322): a compound assignment builds an Op node whose
left side is the assignment target rendered as an expression node. -/
def make_assign_op (op : AstOp) (target : AssignTarget) (rhs : Node) : Node :=
  Node.op op (AssignTarget.to_node target) rhs

/-- The body of build_ast for Rule::single_assignment after its pieces are
consumed (parser.rs lines 309-332): the operator rule selects either the
plain right-hand side or the compound rewrite; the unreachable arm for a
non-assignment rule is modelled by the plain right-hand side. -/
def buildSingleAssignment (target : AssignTarget) (operator : Rule) (rhs : Node) : Node :=
  let expression := match operator with
    | .assign => rhs
    | .assign_add => make_assign_op .add target rhs
    | .assign_subtract => make_assign_op .subtract target rhs
    | .assign_multiply => make_assign_op .multiply target rhs
    | .assign_divide => make_assign_op .divide target rhs
    | .assign_modulo => make_assign_op .modulo target rhs
    | _ => rhs
  Node.assign target expression

/-- The recursive AST construction pass build_ast (parser.rs lines 43-556)
over the pair model.  Fuel makes the nested recursion structural; every
theorem quantifies over or supplies enough fuel, and fuel 0 (never reached
from kotoParserParse, which passes the sizeOf of the pair) yields an Empty
node.  Arms are in source order; the rules whose arms no claim exercises
(maps, vec4, functions, calls, control flow, copy and share) collapse to an
Empty node in this model, as does the unreachable arm.  The lookup-chain
mapping appears twice below exactly as the pair_as_lookup macro of the
source is expanded at both of its use sites. -/
def buildAst : Nat → PestPair → Node
  | 0, _ => Node.empty
  | fuel + 1, PestPair.mk r text inner =>
    match r, inner with
    | .next_expression, p :: _ => buildAst fuel p
    | .next_expression, _ => Node.empty
    | .program, ps => Node.block (ps.map (fun p => buildAst fuel p))
    | .child_block, ps => Node.block (ps.map (fun p => buildAst fuel p))
    | .expressions, [p] => buildAst fuel p
    | .expressions, ps => Node.list (ps.map (fun p => buildAst fuel p))
    | .value_terms, [p] => buildAst fuel p
    | .value_terms, ps => Node.list (ps.map (fun p => buildAst fuel p))
    | .empty, _ => Node.empty
    | .boolean, _ => Node.bool (text == "true")
    | .number, _ => Node.number text
    | .string, sp :: _ => Node.str sp.asStr
    | .string, _ => Node.empty
    | .list, ps => Node.list (ps.map (fun p => buildAst fuel p))
    | .range, first :: rest =>
      -- the source peeks at the first inner pair: a range_op rule there
      -- means the start bound was omitted
      if first.rule = Rule.range_op then
        let inclusive := first.asStr == "..="
        match rest with
        | ep :: _ => Node.index_range none (some (buildAst fuel ep)) inclusive
        | [] => Node.index_range none none inclusive
      else
        match rest with
        | opp :: rest2 =>
          let inclusive := opp.asStr == "..="
          let start := buildAst fuel first
          match rest2 with
          | ep :: _ => Node.range start (buildAst fuel ep) inclusive
          | [] => Node.index_range (some start) none inclusive
        | [] => Node.empty
    | .range, [] => Node.empty
    | .lookup, qs =>
      Node.lookup (qs.map (fun q =>
        match q with
        | PestPair.mk .id t2 _ => LookupNode.id t2
        | PestPair.mk .map_access _ (idp :: _) => LookupNode.id idp.asStr
        | PestPair.mk .index _ (ep :: _) => LookupNode.index (buildAst fuel ep)
        | PestPair.mk .call_args _ args => LookupNode.call (args.map (fun p => buildAst fuel p))
        | _ => LookupNode.id ""))
    | .id, _ => Node.id text
    | .debug_with_parens, _kw :: es :: _ =>
      Node.debug (es.inner.map (fun p => (p.asStr, buildAst fuel p)))
    | .debug_no_parens, _kw :: es :: _ =>
      Node.debug (es.inner.map (fun p => (p.asStr, buildAst fuel p)))
    | .debug_with_parens, _ => Node.empty
    | .debug_no_parens, _ => Node.empty
    | .single_assignment, tp :: opp :: rhsp :: _ =>
      let target := match tp with
        | PestPair.mk .assignment_id _ (PestPair.mk .global_keyword _ _ :: idp :: _) =>
          AssignTarget.id idp.asStr .global_
        | PestPair.mk .assignment_id _ (idp :: _) => AssignTarget.id idp.asStr .local_
        | PestPair.mk .lookup _ qs =>
          AssignTarget.lookup (qs.map (fun q =>
            match q with
            | PestPair.mk .id t2 _ => LookupNode.id t2
            | PestPair.mk .map_access _ (idp :: _) => LookupNode.id idp.asStr
            | PestPair.mk .index _ (ep :: _) => LookupNode.index (buildAst fuel ep)
            | PestPair.mk .call_args _ args => LookupNode.call (args.map (fun p => buildAst fuel p))
            | _ => LookupNode.id ""))
        | _ => AssignTarget.id "" .local_
      buildSingleAssignment target opp.rule (buildAst fuel rhsp)
    | .single_assignment, _ => Node.empty
    | .operation, ps =>
      climbTokens (ps.map (fun p =>
        if (opTable p.rule).isSome then Sum.inl p.rule else Sum.inr (buildAst fuel p)))
    | .break_, _ => Node.break_
    | .continue_, _ => Node.continue_
    | _, _ => Node.empty

example :
    buildAst 3 (PestPair.mk .operation "1 + 2 * 3"
      [PestPair.mk .number "1" [], PestPair.mk .add "+" [], PestPair.mk .number "2" [],
       PestPair.mk .multiply "*" [], PestPair.mk .number "3" []]) =
      Node.op .add (Node.number "1") (Node.op .multiply (Node.number "2") (Node.number "3")) := rfl

example :
    buildAst 3 (PestPair.mk .range "1..2"
      [PestPair.mk .number "1" [], PestPair.mk .range_op ".." [], PestPair.mk .number "2" []]) =
      Node.range (Node.number "1") (Node.number "2") false := rfl

example :
    buildAst 3 (PestPair.mk .range "..=2"
      [PestPair.mk .range_op "..=" [], PestPair.mk .number "2" []]) =
      Node.index_range none (some (Node.number "2")) true := rfl

theorem climb_expr_nil (fuel min_prec : Nat) (lhs : Node) :
    climb_expr fuel lhs min_prec [] = (lhs, []) := by
  cases fuel <;> rfl

theorem climb_expr_step (fuel min_prec p : Nat) (a : Assoc) (r : Rule) (lhs rhs0 : Node)
    (rest : List (Sum Rule Node)) (h : opTable r = some (p, a)) (hle : min_prec ≤ p) :
    climb_expr (fuel + 1) lhs min_prec (Sum.inl r :: Sum.inr rhs0 :: rest) =
      (let next_min := match a with
        | Assoc.left => p + 1
        | Assoc.right => p
       let rp := climb_expr fuel rhs0 next_min rest
       climb_expr fuel (infixBuild r lhs rp.1) min_prec rp.2) := by
  simp only [climb_expr, h]
  rw [if_pos hle]
  cases a <;> rfl

theorem climb_expr_stop (fuel min_prec p : Nat) (a : Assoc) (r : Rule) (lhs rhs0 : Node)
    (rest : List (Sum Rule Node)) (h : opTable r = some (p, a)) (hgt : p < min_prec) :
    climb_expr (fuel + 1) lhs min_prec (Sum.inl r :: Sum.inr rhs0 :: rest) =
      (lhs, Sum.inl r :: Sum.inr rhs0 :: rest) := by
  simp only [climb_expr, h]
  rw [if_neg (by omega)]

theorem climb_two_ops_left (fuel t1 t2 : Nat) (r1 r2 : Rule)
    (h1 : opTable r1 = some (t1, Assoc.left)) (h2 : opTable r2 = some (t2, Assoc.left))
    (hle : t2 ≤ t1) (a b c : Node) :
    climb_expr (fuel + 2) a 0 [Sum.inl r1, Sum.inr b, Sum.inl r2, Sum.inr c] =
      (infixBuild r2 (infixBuild r1 a b) c, []) := by
  rw [show fuel + 2 = (fuel + 1) + 1 from rfl]
  rw [climb_expr_step (fuel + 1) 0 t1 Assoc.left r1 a b [Sum.inl r2, Sum.inr c] h1 (Nat.zero_le _)]
  dsimp only
  rw [climb_expr_stop fuel (t1 + 1) t2 Assoc.left r2 b c [] h2 (by omega)]
  dsimp only
  rw [climb_expr_step fuel 0 t2 Assoc.left r2 (infixBuild r1 a b) c [] h2 (Nat.zero_le _)]
  dsimp only
  rw [climb_expr_nil, climb_expr_nil]

theorem climb_two_ops_right (fuel t1 t2 : Nat) (r1 r2 : Rule)
    (h1 : opTable r1 = some (t1, Assoc.left)) (h2 : opTable r2 = some (t2, Assoc.left))
    (hlt : t1 < t2) (a b c : Node) :
    climb_expr (fuel + 2) a 0 [Sum.inl r1, Sum.inr b, Sum.inl r2, Sum.inr c] =
      (infixBuild r1 a (infixBuild r2 b c), []) := by
  rw [show fuel + 2 = (fuel + 1) + 1 from rfl]
  rw [climb_expr_step (fuel + 1) 0 t1 Assoc.left r1 a b [Sum.inl r2, Sum.inr c] h1 (Nat.zero_le _)]
  dsimp only
  rw [climb_expr_step fuel (t1 + 1) t2 Assoc.left r2 b c [] h2 (by omega)]
  dsimp only
  rw [climb_expr_nil, climb_expr_nil, climb_expr_nil]

/-- Claim C1: binary operators are parsed through the five-tier precedence
ladder of KotoParser::new, lowest to highest: (1) and, or; (2) equality;
(3) comparisons; (4) additive; (5) multiplicative; every tier is
left-associative.  First conjunct: the operator table is exactly that
ladder.  Second conjunct: for any two adjacent operators, the climber
associates to the left when the second operator does not bind tighter, and
groups to the right when it does.  Last conjuncts: build_ast parses
1 + 2 * 3 as Op(Add, 1, Op(Multiply, 2, 3)) and a - b - c as
Op(Subtract, Op(Subtract, a, b), c). -/
theorem C1_operator_precedence :
    (opTable Rule.and = some (1, Assoc.left) ∧ opTable Rule.or = some (1, Assoc.left) ∧
     opTable Rule.equal = some (2, Assoc.left) ∧ opTable Rule.not_equal = some (2, Assoc.left) ∧
     opTable Rule.less = some (3, Assoc.left) ∧ opTable Rule.less_or_equal = some (3, Assoc.left) ∧
     opTable Rule.greater = some (3, Assoc.left) ∧
     opTable Rule.greater_or_equal = some (3, Assoc.left) ∧
     opTable Rule.add = some (4, Assoc.left) ∧ opTable Rule.subtract = some (4, Assoc.left) ∧
     opTable Rule.multiply = some (5, Assoc.left) ∧ opTable Rule.divide = some (5, Assoc.left) ∧
     opTable Rule.modulo = some (5, Assoc.left)) ∧
    (∀ (r1 r2 : Rule) (t1 t2 : Nat),
      opTable r1 = some (t1, Assoc.left) → opTable r2 = some (t2, Assoc.left) →
      ∀ (a b c : Node),
        (t2 ≤ t1 →
          climbTokens [Sum.inr a, Sum.inl r1, Sum.inr b, Sum.inl r2, Sum.inr c] =
            infixBuild r2 (infixBuild r1 a b) c) ∧
        (t1 < t2 →
          climbTokens [Sum.inr a, Sum.inl r1, Sum.inr b, Sum.inl r2, Sum.inr c] =
            infixBuild r1 a (infixBuild r2 b c))) ∧
    buildAst 3 (PestPair.mk .operation "1 + 2 * 3"
      [PestPair.mk .number "1" [], PestPair.mk .add "+" [], PestPair.mk .number "2" [],
       PestPair.mk .multiply "*" [], PestPair.mk .number "3" []]) =
      Node.op .add (Node.number "1") (Node.op .multiply (Node.number "2") (Node.number "3")) ∧
    buildAst 3 (PestPair.mk .operation "a - b - c"
      [PestPair.mk .id "a" [], PestPair.mk .subtract "-" [], PestPair.mk .id "b" [],
       PestPair.mk .subtract "-" [], PestPair.mk .id "c" []]) =
      Node.op .subtract (Node.op .subtract (Node.id "a") (Node.id "b")) (Node.id "c") := by
  refine ⟨⟨rfl, rfl, rfl, rfl, rfl, rfl, rfl, rfl, rfl, rfl, rfl, rfl, rfl⟩, ?_, rfl, rfl⟩
  intro r1 r2 t1 t2 h1 h2 a b c
  constructor
  · intro hle
    rw [show climbTokens [Sum.inr a, Sum.inl r1, Sum.inr b, Sum.inl r2, Sum.inr c] =
        (climb_expr (8 + 2) a 0 [Sum.inl r1, Sum.inr b, Sum.inl r2, Sum.inr c]).1 from rfl]
    rw [climb_two_ops_left 8 t1 t2 r1 r2 h1 h2 hle a b c]
  · intro hlt
    rw [show climbTokens [Sum.inr a, Sum.inl r1, Sum.inr b, Sum.inl r2, Sum.inr c] =
        (climb_expr (8 + 2) a 0 [Sum.inl r1, Sum.inr b, Sum.inl r2, Sum.inr c]).1 from rfl]
    rw [climb_two_ops_right 8 t1 t2 r1 r2 h1 h2 hlt a b c]

/-- Witness for claim C1: the general associativity conjunct applied to the
concrete same-tier pair add, subtract. -/
theorem C1_operator_precedence_witness :
    climbTokens [Sum.inr (Node.id "a"), Sum.inl Rule.add, Sum.inr (Node.id "b"),
      Sum.inl Rule.subtract, Sum.inr (Node.id "c")] =
      infixBuild Rule.subtract (infixBuild Rule.add (Node.id "a") (Node.id "b")) (Node.id "c") :=
  (C1_operator_precedence.2.1 Rule.add Rule.subtract 4 4 rfl rfl
    (Node.id "a") (Node.id "b") (Node.id "c")).1 (Nat.le_refl 4)

/-- Claim C2: a compound single assignment lowers to the same Assign node
as the expanded form.  For each op in add, subtract, multiply, divide,
modulo: the first equation shows the produced node is
Assign(target, Op(op, target as expression, rhs)); the second shows it
coincides with building a plain assignment whose right-hand side is the
climbed operation target-op-rhs, i.e. with parsing t = t op e. -/
theorem C2_compound_assignment :
    ∀ (t : AssignTarget) (e : Node),
      (buildSingleAssignment t Rule.assign_add e =
          Node.assign t (Node.op .add t.to_node e) ∧
        buildSingleAssignment t Rule.assign_add e =
          buildSingleAssignment t Rule.assign
            (climbTokens [Sum.inr t.to_node, Sum.inl Rule.add, Sum.inr e])) ∧
      (buildSingleAssignment t Rule.assign_subtract e =
          Node.assign t (Node.op .subtract t.to_node e) ∧
        buildSingleAssignment t Rule.assign_subtract e =
          buildSingleAssignment t Rule.assign
            (climbTokens [Sum.inr t.to_node, Sum.inl Rule.subtract, Sum.inr e])) ∧
      (buildSingleAssignment t Rule.assign_multiply e =
          Node.assign t (Node.op .multiply t.to_node e) ∧
        buildSingleAssignment t Rule.assign_multiply e =
          buildSingleAssignment t Rule.assign
            (climbTokens [Sum.inr t.to_node, Sum.inl Rule.multiply, Sum.inr e])) ∧
      (buildSingleAssignment t Rule.assign_divide e =
          Node.assign t (Node.op .divide t.to_node e) ∧
        buildSingleAssignment t Rule.assign_divide e =
          buildSingleAssignment t Rule.assign
            (climbTokens [Sum.inr t.to_node, Sum.inl Rule.divide, Sum.inr e])) ∧
      (buildSingleAssignment t Rule.assign_modulo e =
          Node.assign t (Node.op .modulo t.to_node e) ∧
        buildSingleAssignment t Rule.assign_modulo e =
          buildSingleAssignment t Rule.assign
            (climbTokens [Sum.inr t.to_node, Sum.inl Rule.modulo, Sum.inr e])) :=
  fun _ _ => ⟨⟨rfl, rfl⟩, ⟨rfl, rfl⟩, ⟨rfl, rfl⟩, ⟨rfl, rfl⟩, ⟨rfl, rfl⟩⟩

/-- Discriminator for the IndexRange variant. -/
def Node.isIndexRange : Node → Bool
  | .index_range _ _ _ => true
  | _ => false

/-- Claim C6: a..b gives Range with inclusive false, a..=b gives Range with
inclusive true; a range with an omitted bound gives an IndexRange that
records exactly the bounds that were present, with the inclusive flag taken
from the range operator text; a range with both bounds present is never an
IndexRange. -/
theorem C6_range_nodes :
    ∀ (fuel : Nat) (s e : PestPair) (t opText : String), s.rule ≠ Rule.range_op →
      (buildAst (fuel + 1) (PestPair.mk .range t [s, PestPair.mk .range_op ".." [], e]) =
          Node.range (buildAst fuel s) (buildAst fuel e) false) ∧
      (buildAst (fuel + 1) (PestPair.mk .range t [s, PestPair.mk .range_op "..=" [], e]) =
          Node.range (buildAst fuel s) (buildAst fuel e) true) ∧
      (buildAst (fuel + 1) (PestPair.mk .range t [PestPair.mk .range_op opText [], e]) =
          Node.index_range none (some (buildAst fuel e)) (opText == "..=")) ∧
      (buildAst (fuel + 1) (PestPair.mk .range t [s, PestPair.mk .range_op opText []]) =
          Node.index_range (some (buildAst fuel s)) none (opText == "..=")) ∧
      (∀ opText2 : String,
        Node.isIndexRange (buildAst (fuel + 1)
          (PestPair.mk .range t [s, PestPair.mk .range_op opText2 [], e])) = false) := by
  intro fuel s e t opText hs
  refine ⟨?_, ?_, rfl, ?_, fun opText2 => ?_⟩ <;>
    · simp only [buildAst]
      rw [if_neg hs]
      rfl

/-- Witness for claim C6: the exclusive-range conjunct at the concrete
input 1..2. -/
theorem C6_range_nodes_witness :
    buildAst 2 (PestPair.mk .range "1..2"
      [PestPair.mk .number "1" [], PestPair.mk .range_op ".." [], PestPair.mk .number "2" []]) =
      Node.range (Node.number "1") (Node.number "2") false :=
  (C6_range_nodes 1 (PestPair.mk .number "1" []) (PestPair.mk .number "2" [])
    "1..2" ".." (by decide)).1

/-- Claim C7: a debug expression builds a Debug node pairing, in
left-to-right order, the exact matched source slice (pair.as_str) of each
sub-expression with the built AST of that sub-expression.  The closed conjunct
shows a slice with internal double spacing stored verbatim, not
re-pretty-printed. -/
theorem C7_debug_source_slices :
    (∀ (fuel : Nat) (kw esPair : PestPair) (t : String),
      buildAst (fuel + 1) (PestPair.mk .debug_no_parens t [kw, esPair]) =
        Node.debug (esPair.inner.map (fun p => (p.asStr, buildAst fuel p))) ∧
      buildAst (fuel + 1) (PestPair.mk .debug_with_parens t [kw, esPair]) =
        Node.debug (esPair.inner.map (fun p => (p.asStr, buildAst fuel p)))) ∧
    buildAst 3 (PestPair.mk .debug_no_parens "debug 1 +  2, x"
      [PestPair.mk .debug_keyword "debug" [],
       PestPair.mk .expressions "1 +  2, x"
         [PestPair.mk .operation "1 +  2"
            [PestPair.mk .number "1" [], PestPair.mk .add "+" [], PestPair.mk .number "2" []],
          PestPair.mk .id "x" []]]) =
      Node.debug [("1 +  2", Node.op .add (Node.number "1") (Node.number "2")),
        ("x", Node.id "x")] :=
  ⟨fun _ _ _ _ => ⟨rfl, rfl⟩, rfl⟩

/-- Source position (struct Position of the parser crate, modelled from the
spec: 1-indexed line and column). -/
structure Position where
  line : Nat
  column : Nat
  deriving DecidableEq, Repr

/-- A run of n space characters (the repeat method on a space). -/
def spaces (n : Nat) : String :=
  String.mk (List.replicate n ' ')

/-- A run of n caret characters (the repeat method on a caret). -/
def carets (n : Nat) : String :=
  String.mk (List.replicate n '^')

/-- Right alignment within a field of the given width, as the Rust format
specifier with a right-align flag and a width: pad on the left with spaces,
never truncate. -/
def rightAlign (s : String) (width : Nat) : String :=
  spaces (width - s.length) ++ s

/-- Iterator max_by_key over string length: when several elements tie for
the maximum, Rust returns the last one; an empty list gives none. -/
def maxByKeyLast (key : String → Nat) (l : List String) : Option String :=
  l.foldl
    (fun acc x =>
      match acc with
      | none => some x
      | some m => if key m ≤ key x then some x else some m)
    none

/-- Strip one trailing carriage return from a reversed line accumulator
(CRLF recognition of str::lines). -/
def dropCarriage : List Char → List Char
  | '\r' :: rest => rest
  | acc => acc

/-- Splitting step of str::lines: the accumulator holds the current line
reversed; a newline terminates the line. -/
def linesSplit : List Char → List Char → List String
  | [], acc => [String.mk acc.reverse]
  | c :: cs, acc =>
    if c = '\n' then String.mk (dropCarriage acc).reverse :: linesSplit cs []
    else linesSplit cs (c :: acc)

/-- The lines method of Rust str, used by Koto::format_runtime_error: split
at newlines, recognizing a carriage-return-newline pair as one terminator; a
trailing terminator produces no final empty line, and the empty string has
no lines. -/
def rustLines (s : String) : List String :=
  let parts := linesSplit s.data []
  if parts.getLast? = some "" then parts.dropLast else parts

example : rustLines "ab\ncd" = ["ab", "cd"] := rfl

example : rustLines "ab\r\ncd\n" = ["ab", "cd"] := rfl

example : rustLines "" = [] := rfl

/-- The method Koto::format_runtime_error (src/src/koto/src/lib.rs lines 145-208),
translated clause for clause: the excerpt lines are the source lines from
the start line through the end line; the line-number strings; the gutter
width is the length of the longest (last maximal) line number; a one-line
excerpt renders the numbered source line, a newline, then the gutter bar
followed by start-column spaces and end-column minus start-column carets;
a multi-line excerpt concatenates one numbered segment per line exactly as
the source loop does.  The source unwraps the maximum of the line numbers,
which in Rust panics when the end line precedes the start line; in this
Nat model the line-number range always keeps at least one element, so the
getD default is never used. -/
def format_runtime_error (script message : String) (start_pos end_pos : Position) : String :=
  let excerpt_lines :=
    ((rustLines script).drop (start_pos.line - 1)).take (end_pos.line - start_pos.line + 1)
  let line_numbers :=
    (List.range' start_pos.line (end_pos.line - start_pos.line + 1)).map (fun n => toString n)
  let number_width := ((maxByKeyLast String.length line_numbers).getD "").length
  let padding := spaces (number_width + 2)
  let excerpt :=
    if excerpt_lines.length = 1 then
      (" " ++ rightAlign (line_numbers.headD "") number_width ++ " | "
          ++ excerpt_lines.headD "" ++ "\n")
        ++ (padding ++ "|"
          ++ (spaces start_pos.column ++ carets (end_pos.column - start_pos.column)))
    else
      String.join ((excerpt_lines.zip line_numbers).map
        (fun el => " " ++ rightAlign el.2 number_width ++ " | " ++ el.1))
  "Runtime error: " ++ message ++ "\n --> " ++ toString start_pos.line ++ ":"
    ++ toString start_pos.column ++ "\n" ++ padding ++ "|\n" ++ excerpt

theorem empty_append_string (s : String) : "" ++ s = s := by
  obtain ⟨data⟩ := s
  rfl

theorem rightAlign_self (s : String) : rightAlign s s.length = s := by
  unfold rightAlign
  rw [Nat.sub_self]
  exact empty_append_string s

/-- Claim C4: a runtime error whose span starts and ends on the same source
line renders as exactly the header line, the arrow line, the bare gutter
bar, the numbered source line, and a caret line whose carets start under
column start column plus one of the excerpt and number end column minus
start column. -/
theorem C4_single_line_error_format :
    ∀ (script message : String) (start_pos end_pos : Position),
      start_pos.line = end_pos.line → 1 ≤ start_pos.line →
      start_pos.line ≤ (rustLines script).length →
      format_runtime_error script message start_pos end_pos =
        "Runtime error: " ++ message ++ "\n --> " ++ toString start_pos.line ++ ":"
          ++ toString start_pos.column ++ "\n" ++ spaces ((toString start_pos.line).length + 2)
          ++ "|\n"
          ++ ((" " ++ toString start_pos.line ++ " | "
                ++ (rustLines script).getD (start_pos.line - 1) "" ++ "\n")
            ++ (spaces ((toString start_pos.line).length + 2) ++ "|"
              ++ (spaces start_pos.column
                ++ carets (end_pos.column - start_pos.column)))) := by
  intro script message start_pos end_pos hline h1 h2
  have hidx : start_pos.line - 1 < (rustLines script).length := by omega
  have hdrop : (rustLines script).drop (start_pos.line - 1) =
      (rustLines script).getD (start_pos.line - 1) ""
        :: (rustLines script).drop (start_pos.line - 1 + 1) := by
    rw [List.getD_eq_getElem _ _ hidx]
    exact List.drop_eq_getElem_cons hidx
  simp only [format_runtime_error, ← hline, Nat.sub_self, Nat.zero_add]
  rw [hdrop]
  simp only [List.take_succ_cons, List.take_zero, List.length_cons, List.length_nil,
    List.range'_one, List.map_cons, List.map_nil, List.headD_cons, maxByKeyLast,
    List.foldl_cons, List.foldl_nil, Option.getD_some, rightAlign_self, reduceIte]

/-- Witness for claim C4: the single-line format at a concrete script and
span, with the rendered string spelled out literally. -/
theorem C4_single_line_error_format_witness :
    format_runtime_error "xy = 3" "m" (Position.mk 1 1) (Position.mk 1 3) =
      "Runtime error: m\n --> 1:1\n   |\n 1 | xy = 3\n   | ^^" :=
  (C4_single_line_error_format "xy = 3" "m" (Position.mk 1 1) (Position.mk 1 3)
    rfl (by decide) (by decide)).trans rfl

/-- Claim C5 names an intended behavior the code does not implement: for a
span covering more than one line the source loop appends one numbered
segment per covered line but, unlike the single-line branch, appends no
newline, so the segments run together on one output line.  First conjunct:
the exact output on a two-line span, with both gutters and no caret line,
concatenated without a line break.  Second conjunct: the whole rendering
contains exactly the three header newlines, so no excerpt line ends with
one. -/
theorem C5_multi_line_error_format :
    format_runtime_error "ab\ncd" "m" (Position.mk 1 1) (Position.mk 2 1) =
      "Runtime error: m\n --> 1:1\n   |\n 1 | ab 2 | cd" ∧
    ((format_runtime_error "ab\ncd" "m" (Position.mk 1 1) (Position.mk 2 1)).data.count '\n') = 3 := by
  exact ⟨rfl, rfl⟩

/-- Runtime value, modelled from the spec (section 3).  The f64 payloads
are kept as Float; no claim depends on numeric values.  A user function
keeps its argument names and body nodes; a builtin callable is identified
by its registration name, the native closure itself being outside the
model.  A map payload is the ordered entry list of a ValueMap. -/
inductive Value where
  | empty
  | bool (b : Bool)
  | number (n : Float)
  | vec4 (x y z w : Float)
  | str (s : String)
  | range (start : Int) (end_ : Int) (inclusive : Bool)
  | index_range (start : Option Int) (end_ : Option Int) (inclusive : Bool)
  | list (items : List Value)
  | map (entries : List (String × Value))
  | function (args : List String) (body : List Node)
  | builtinFunction (name : String)

/-- Modelled from the spec: the add operations of ValueMap (runtime crate,
not under src/).  The spec (section 3) prescribes an ordered string-keyed
map whose insertion order is preserved across mutation: adding replaces the
value of an existing key in place and appends a new key at the end.
add_value, add_list and add_map of the source are this operation at
different payload types. -/
def ValueMap.add : List (String × Value) → String → Value → List (String × Value)
  | [], k, v => [(k, v)]
  | (k2, v2) :: rest, k, v =>
    if k2 = k then (k, v) :: rest else (k2, v2) :: ValueMap.add rest k v

/-- Modelled from the spec: keyed access into a ValueMap (the get_mut calls
of the source), returning the value bound to the first matching key. -/
def ValueMap.get : List (String × Value) → String → Option Value
  | [], _ => none
  | (k2, v) :: rest, k => if k2 = k then some v else ValueMap.get rest k

theorem ValueMap.get_add_self (m : List (String × Value)) (k : String) (v : Value) :
    ValueMap.get (ValueMap.add m k v) k = some v := by
  induction m with
  | nil => simp [ValueMap.add, ValueMap.get]
  | cons kv rest ih =>
    obtain ⟨k2, v2⟩ := kv
    by_cases hk : k2 = k
    · simp [ValueMap.add, ValueMap.get, hk]
    · simp [ValueMap.add, ValueMap.get, hk, ih]

theorem ValueMap.get_add_ne (m : List (String × Value)) (k k2 : String) (v : Value)
    (h : k ≠ k2) : ValueMap.get (ValueMap.add m k v) k2 = ValueMap.get m k2 := by
  induction m with
  | nil => simp [ValueMap.add, ValueMap.get, h]
  | cons kv rest ih =>
    obtain ⟨k3, v3⟩ := kv
    by_cases hk : k3 = k
    · subst hk
      simp [ValueMap.add, ValueMap.get, h]
    · simp [ValueMap.add, ValueMap.get, hk, ih]

/-- The host interpreter state (struct Koto of src/src/koto/src/lib.rs):
the most recently stored script text and AST, and the runtime, which the
model represents by its global map.  The runtime type is not under src/;
its global map is modelled from the spec (section 4.D), and the call stack
is empty at the host boundary. -/
structure KotoState where
  script : String
  ast : Node
  globals : List (String × Value)

/-- Modelled from the spec: the kind of a parse failure (sections 6 and 7):
either the input is an incomplete indented block, which the REPL probes
for, or any other rule failure. -/
inductive ParseErrorKind where
  | incompleteIndentedBlock
  | otherFailure
  deriving DecidableEq, Repr

/-- Modelled from the spec: the parser error type (not under src/; only its
REPL caller is).  A structured error carrying the failure position, its
rendered Display text, and its kind. -/
structure ParseError where
  line : Nat
  column : Nat
  kind : ParseErrorKind
  message : String

/-- Modelled from the spec: the is_indentation_error predicate on a parse
error, true exactly on the incomplete-indented-block kind. -/
def ParseError.is_indentation_error (e : ParseError) : Bool :=
  match e.kind with
  | .incompleteIndentedBlock => true
  | .otherFailure => false

mutual

/-- Size of a pair tree, strictly larger than its nesting depth: the fuel
kotoParserParse hands to buildAst. -/
def PestPair.size : PestPair → Nat
  | .mk _ _ inner => PestPair.sizeList inner + 1

/-- Size of a list of pair trees. -/
def PestPair.sizeList : List PestPair → Nat
  | [] => 0
  | p :: ps => PestPair.size p + PestPair.sizeList ps

end

/-- The method KotoParser::parse (parser.rs lines 37-41): run the grammar on the
source and build the AST from the resulting top-level pair.  The grammar
(koto_grammar crate) is not under src/ and is abstracted as a function
argument; the size of the returned pair bounds the build recursion depth,
so the fuel is never exhausted. -/
def kotoParserParse (grammar : String → Except ParseError PestPair) (source : String) :
    Except ParseError Node :=
  match grammar source with
  | .ok pair => .ok (buildAst pair.size pair)
  | .error e => .error e

/-- The method Koto::parse (lib.rs lines 44-53): on success store the script text and
the AST and return unit; on failure leave both untouched and return the
formatted message built from the Display form of the parser error. -/
def Koto.parse (grammar : String → Except ParseError PestPair) (st : KotoState)
    (script : String) : KotoState × Except String Unit :=
  match kotoParserParse grammar script with
  | .ok ast => ({ st with script := script, ast := ast }, .ok ())
  | .error e => (st, .error ("Error while parsing script: " ++ e.message))

/-- Runtime error values (enum Error of the runtime crate, modelled from
the spec section 7): a builtin error carries only a message, a runtime
error a message and a span. -/
inductive RtError where
  | builtinError (message : String)
  | runtimeError (message : String) (start_pos : Position) (end_pos : Position)

/-- The method Koto::run (lib.rs lines 106-118): evaluate the stored AST against the
runtime; a builtin error is prefixed, a runtime error is rendered with
format_runtime_error against the stored script.  The evaluator lives in
the runtime crate (not under src/) and is abstracted as a function from
AST and globals to an error or a value with updated globals. -/
def Koto.run
    (eval : Node → List (String × Value) → Except RtError (Value × List (String × Value)))
    (st : KotoState) : KotoState × Except String Value :=
  match eval st.ast st.globals with
  | .ok (v, g) => ({ st with globals := g }, .ok v)
  | .error (.builtinError m) => (st, .error ("Builtin error: " ++ m ++ "\n"))
  | .error (.runtimeError m sp ep) => (st, .error (format_runtime_error st.script m sp ep))

/-- The constructor Koto::new (lib.rs lines 15-27): start from the default state, let
koto_std::register populate the globals (koto_std is not under src/, so
the registered prelude is abstracted as g0), then bind env to a map with
script_dir and script_path set to Empty and args to an empty list. -/
def Koto.new (g0 : List (String × Value)) : KotoState :=
  let env := ValueMap.add (ValueMap.add (ValueMap.add [] "script_dir" Value.empty)
    "script_path" Value.empty) "args" (Value.list [])
  { script := "", ast := Node.empty, globals := ValueMap.add g0 "env" (Value.map env) }

/-- The method Koto::set_args (lib.rs lines 55-73): rebuild env.args as a list of
string values.  The source unwraps the env entry and declares a non-map
binding unreachable; both panics are modelled as none. -/
def Koto.set_args (st : KotoState) (args : List String) : Option KotoState :=
  let koto_args := args.map Value.str
  match ValueMap.get st.globals "env" with
  | some (Value.map envMap) =>
    let g2 := ValueMap.add st.globals "env"
      (Value.map (ValueMap.add envMap "args" (Value.list koto_args)))
    some { st with globals := g2 }
  | _ => none

/-- The method Koto::set_script_path (lib.rs lines 75-104): with no path both env
entries become Empty; with a path, script_path is the path and script_dir
its parent directory, or Empty when the path has none.  Path::parent of
the Rust standard library is abstracted as the parent argument; the env
unwrap panics are modelled as none. -/
def Koto.set_script_path (parent : String → Option String) (st : KotoState)
    (path : Option String) : Option KotoState :=
  let script_dir := match path with
    | some p =>
      match parent p with
      | some d => Value.str d
      | none => Value.empty
    | none => Value.empty
  let script_path := match path with
    | some p => Value.str p
    | none => Value.empty
  match ValueMap.get st.globals "env" with
  | some (Value.map envMap) =>
    let g2 := ValueMap.add st.globals "env"
      (Value.map (ValueMap.add (ValueMap.add envMap "script_dir" script_dir)
        "script_path" script_path))
    some { st with globals := g2 }
  | _ => none

/-- Modelled from the spec: Runtime::get_value (runtime crate, not under
src/) resolves a name through the local frames and then the global map
(section 4.D); at the host boundary the call stack is empty, so resolution
reads the global map.  The scope component of the pair the source returns
plays no role in the claims and is omitted. -/
def Runtime.get_value (globals : List (String × Value)) (name : String) : Option Value :=
  ValueMap.get globals name

/-- The method Koto::has_function (lib.rs lines 120-125): true exactly when get_value
returns a user-defined Function value. -/
def Koto.has_function (st : KotoState) (name : String) : Bool :=
  match Runtime.get_value st.globals name with
  | some (Value.function _ _) => true
  | _ => false

/-- The method Koto::call_function (lib.rs lines 127-143): call the named
zero-argument function through the runtime (abstracted as callFn) and
format errors exactly as run does. -/
def Koto.call_function
    (callFn : String → List (String × Value) → Except RtError (Value × List (String × Value)))
    (st : KotoState) (name : String) : KotoState × Except String Value :=
  match callFn name st.globals with
  | .ok (v, g) => ({ st with globals := g }, .ok v)
  | .error (.builtinError m) => (st, .error ("Builtin error: " ++ m ++ "\n"))
  | .error (.runtimeError m sp ep) => (st, .error (format_runtime_error st.script m sp ep))

/-- The method Koto::run_script_with_args (lib.rs lines 29-42): parse, set the args,
run, then call main exactly when a user-defined function main is in scope,
and otherwise yield Empty.  A propagated error keeps the state of the
failing step; the set_args panic surfaces as none. -/
def Koto.run_script_with_args
    (grammar : String → Except ParseError PestPair)
    (eval : Node → List (String × Value) → Except RtError (Value × List (String × Value)))
    (callFn : String → List (String × Value) → Except RtError (Value × List (String × Value)))
    (st : KotoState) (script : String) (args : List String) :
    Option (KotoState × Except String Value) :=
  let parsed := Koto.parse grammar st script
  match parsed.2 with
  | .error e => some (parsed.1, .error e)
  | .ok _ =>
    match Koto.set_args parsed.1 args with
    | none => none
    | some st2 =>
      let ran := Koto.run eval st2
      match ran.2 with
      | .error e => some (ran.1, .error e)
      | .ok _ =>
        if Koto.has_function ran.1 "main" then some (Koto.call_function callFn ran.1 "main")
        else some (ran.1, .ok Value.empty)

/-- Claim C3: applied to any source text, the parse operation returns
either an AST (which the host stores, acknowledging with unit) or a
structured parse error whose boolean is_indentation_error predicate holds
exactly on the incomplete-indented-block kind of failure. -/
theorem C3_parse_returns_ast_or_error :
    ∀ (grammar : String → Except ParseError PestPair) (st : KotoState) (source : String),
      (∃ ast, kotoParserParse grammar source = .ok ast ∧
        Koto.parse grammar st source = ({ st with script := source, ast := ast }, .ok ())) ∨
      (∃ e, kotoParserParse grammar source = .error e ∧
        Koto.parse grammar st source =
          (st, .error ("Error while parsing script: " ++ e.message)) ∧
        (e.is_indentation_error = true ↔ e.kind = ParseErrorKind.incompleteIndentedBlock)) := by
  intro grammar st source
  cases hh : kotoParserParse grammar source with
  | ok ast => exact Or.inl ⟨ast, rfl, by simp [Koto.parse, hh]⟩
  | error e =>
    refine Or.inr ⟨e, rfl, by simp [Koto.parse, hh], ?_⟩
    cases hk : e.kind <;> simp [ParseError.is_indentation_error, hk]

/-- Claim C9: a failing parse leaves the stored script and AST untouched,
so a subsequent run still evaluates the most recently successfully parsed
program; only a successful parse replaces them. -/
theorem C9_parse_failure_preserves_state :
    ∀ (grammar : String → Except ParseError PestPair) (st : KotoState) (script : String),
      (∀ e, kotoParserParse grammar script = .error e →
        Koto.parse grammar st script =
          (st, .error ("Error while parsing script: " ++ e.message)) ∧
        (Koto.parse grammar st script).1.script = st.script ∧
        (Koto.parse grammar st script).1.ast = st.ast ∧
        ∀ eval, Koto.run eval (Koto.parse grammar st script).1 = Koto.run eval st) ∧
      (∀ ast, kotoParserParse grammar script = .ok ast →
        (Koto.parse grammar st script).1.script = script ∧
        (Koto.parse grammar st script).1.ast = ast ∧
        (Koto.parse grammar st script).2 = .ok ()) := by
  intro grammar st script
  constructor
  · intro e he
    simp [Koto.parse, he]
  · intro ast ha
    simp [Koto.parse, ha]

/-- Witness for claim C9: a concrete failing grammar leaves a freshly
created interpreter state untouched and surfaces the formatted message. -/
theorem C9_parse_failure_preserves_state_witness :
    Koto.parse (fun _ => Except.error (ParseError.mk 1 1 ParseErrorKind.otherFailure "boom"))
      (Koto.new []) "x" =
      (Koto.new [], Except.error ("Error while parsing script: " ++ "boom")) :=
  ((C9_parse_failure_preserves_state
      (fun _ => Except.error (ParseError.mk 1 1 ParseErrorKind.otherFailure "boom"))
      (Koto.new []) "x").1 (ParseError.mk 1 1 ParseErrorKind.otherFailure "boom") rfl).1

/-- Claim C8: after Koto::new the global environment binds env to a map
with script_dir Empty, script_path Empty and args an empty list, whatever
the std registration added before; set_args succeeds on any state whose
env is bound to a map and replaces only the args entry; set_script_path
succeeds likewise, sets script_path to the path (or Empty without one),
sets script_dir to the parent directory (or Empty without one), and leaves
the args entry unchanged, so all three keys stay present. -/
theorem C8_env_map_invariant :
    (∀ g0, ValueMap.get (Koto.new g0).globals "env" =
      some (Value.map [("script_dir", Value.empty), ("script_path", Value.empty),
        ("args", Value.list [])])) ∧
    (∀ (st : KotoState) (args : List String) (envMap : List (String × Value)),
      ValueMap.get st.globals "env" = some (Value.map envMap) →
      Koto.set_args st args =
        some { st with globals := (ValueMap.add st.globals "env"
          (Value.map (ValueMap.add envMap "args" (Value.list (args.map Value.str))))) } ∧
      ValueMap.get (ValueMap.add envMap "args" (Value.list (args.map Value.str))) "args" =
        some (Value.list (args.map Value.str)) ∧
      ValueMap.get (ValueMap.add envMap "args" (Value.list (args.map Value.str))) "script_dir" =
        ValueMap.get envMap "script_dir" ∧
      ValueMap.get (ValueMap.add envMap "args" (Value.list (args.map Value.str))) "script_path" =
        ValueMap.get envMap "script_path") ∧
    (∀ (parent : String → Option String) (st : KotoState) (path : Option String)
        (envMap : List (String × Value)),
      ValueMap.get st.globals "env" = some (Value.map envMap) →
      ∃ envMap2, Koto.set_script_path parent st path =
          some { st with globals := (ValueMap.add st.globals "env" (Value.map envMap2)) } ∧
        ValueMap.get envMap2 "script_path" =
          some (match path with
            | some p => Value.str p
            | none => Value.empty) ∧
        ValueMap.get envMap2 "script_dir" =
          some (match path with
            | some p =>
              match parent p with
              | some d => Value.str d
              | none => Value.empty
            | none => Value.empty) ∧
        ValueMap.get envMap2 "args" = ValueMap.get envMap "args") := by
  refine ⟨?_, ?_, ?_⟩
  · intro g0
    exact ValueMap.get_add_self g0 "env" _
  · intro st args envMap h
    refine ⟨by simp [Koto.set_args, h], ValueMap.get_add_self envMap "args" _, ?_, ?_⟩
    · exact ValueMap.get_add_ne envMap "args" "script_dir" _ (by decide)
    · exact ValueMap.get_add_ne envMap "args" "script_path" _ (by decide)
  · intro parent st path envMap h
    refine ⟨ValueMap.add (ValueMap.add envMap "script_dir"
        (match path with
          | some p =>
            match parent p with
            | some d => Value.str d
            | none => Value.empty
          | none => Value.empty))
      "script_path"
        (match path with
          | some p => Value.str p
          | none => Value.empty), ?_, ?_, ?_, ?_⟩
    · simp [Koto.set_script_path, h]
    · exact ValueMap.get_add_self _ "script_path" _
    · rw [ValueMap.get_add_ne _ "script_path" "script_dir" _ (by decide)]
      exact ValueMap.get_add_self envMap "script_dir" _
    · rw [ValueMap.get_add_ne _ "script_path" "args" _ (by decide)]
      exact ValueMap.get_add_ne envMap "script_dir" "args" _ (by decide)

/-- Witness for claim C8: the set_args conjunct applied to a freshly
created interpreter: the args entry of env is replaced by the given
strings. -/
theorem C8_env_map_invariant_witness :
    ValueMap.get (ValueMap.add [("script_dir", Value.empty), ("script_path", Value.empty),
      ("args", Value.list [])] "args" (Value.list (["a"].map Value.str))) "args" =
      some (Value.list (["a"].map Value.str)) :=
  (C8_env_map_invariant.2.1 (Koto.new []) ["a"]
    [("script_dir", Value.empty), ("script_path", Value.empty), ("args", Value.list [])]
    rfl).2.1

/-- Claim C10: has_function is true exactly when the name resolves to a
user-defined Function value, and false when the name is unbound or bound
to any other variant, including a builtin; consequently
run_script_with_args, once parse, set_args and the top-level run succeed,
calls the zero-argument main exactly when such a Function named main is in
scope and otherwise yields Empty. -/
theorem C10_has_function_main :
    (∀ (st : KotoState) (name : String),
      (Koto.has_function st name = true ↔
        ∃ fargs fbody, Runtime.get_value st.globals name = some (Value.function fargs fbody)) ∧
      (Runtime.get_value st.globals name = none → Koto.has_function st name = false) ∧
      (∀ bname, Runtime.get_value st.globals name = some (Value.builtinFunction bname) →
        Koto.has_function st name = false)) ∧
    (∀ (grammar : String → Except ParseError PestPair)
        (eval : Node → List (String × Value) → Except RtError (Value × List (String × Value)))
        (callFn : String → List (String × Value) → Except RtError (Value × List (String × Value)))
        (st : KotoState) (script : String) (args : List String)
        (ast : Node) (st2 : KotoState) (v : Value) (g : List (String × Value)),
      kotoParserParse grammar script = .ok ast →
      Koto.set_args { st with script := script, ast := ast } args = some st2 →
      eval st2.ast st2.globals = .ok (v, g) →
      (Koto.has_function { st2 with globals := g } "main" = true →
        Koto.run_script_with_args grammar eval callFn st script args =
          some (Koto.call_function callFn { st2 with globals := g } "main")) ∧
      (Koto.has_function { st2 with globals := g } "main" = false →
        Koto.run_script_with_args grammar eval callFn st script args =
          some ({ st2 with globals := g }, .ok Value.empty))) := by
  constructor
  · intro st name
    refine ⟨⟨?_, ?_⟩, ?_, ?_⟩
    · intro h
      unfold Koto.has_function at h
      cases hv : Runtime.get_value st.globals name with
      | none =>
        rw [hv] at h
        simp at h
      | some w =>
        cases w <;> rw [hv] at h <;> simp at h
        exact ⟨_, _, rfl⟩
    · rintro ⟨fargs, fbody, hv⟩
      simp [Koto.has_function, hv]
    · intro hnone
      simp [Koto.has_function, hnone]
    · intro bname hv
      simp [Koto.has_function, hv]
  · intro grammar eval callFn st script args ast st2 v g hp hsa he
    have hparse : Koto.parse grammar st script =
        ({ st with script := script, ast := ast }, .ok ()) := by
      simp [Koto.parse, hp]
    constructor
    · intro hmain
      unfold Koto.run_script_with_args
      rw [hparse]
      simp [hsa, Koto.run, he, hmain]
    · intro hmain
      unfold Koto.run_script_with_args
      rw [hparse]
      simp [hsa, Koto.run, he, hmain]

/-- Witness for claim C10: with a trivial grammar and evaluator, a fresh
interpreter has no user-defined main, so run_script_with_args yields
Empty. -/
theorem C10_has_function_main_witness :
    Koto.run_script_with_args (fun _ => Except.ok (PestPair.mk Rule.empty "" []))
      (fun _ gl => Except.ok (Value.empty, gl)) (fun _ gl => Except.ok (Value.empty, gl))
      (Koto.new []) "x" [] =
      some (KotoState.mk "x" Node.empty
        [("env", Value.map [("script_dir", Value.empty), ("script_path", Value.empty),
          ("args", Value.list [])])], Except.ok Value.empty) :=
  (C10_has_function_main.2 (fun _ => Except.ok (PestPair.mk Rule.empty "" []))
    (fun _ gl => Except.ok (Value.empty, gl)) (fun _ gl => Except.ok (Value.empty, gl))
    (Koto.new []) "x" [] Node.empty
    (KotoState.mk "x" Node.empty
      [("env", Value.map [("script_dir", Value.empty), ("script_path", Value.empty),
        ("args", Value.list [])])])
    Value.empty
    [("env", Value.map [("script_dir", Value.empty), ("script_path", Value.empty),
      ("args", Value.list [])])]
    rfl rfl rfl).2 rfl
